import Mathlib

/-!
Verification of the event-loop core in deps/uv/src/unix/core.c: the handle
close state machine, the closing-list and pending-queue drains, the watcher
table, poll-timeout computation, the reactor driver uv_run_jx, and the
EINTR-handling fd helpers. Each definition is a shallow embedding of the
corresponding C function; machine-integer arithmetic is made explicit where
overflow can occur.
-/

namespace Libuv

/-- Handles are identified by natural numbers. -/
abbrev HandleId := Nat

/-- Watchers are identified by natural numbers. -/
abbrev WatcherId := Nat

/-! ## Closing list (uv__make_close_pending / uv__run_closing_handles) -/

/-- uv__make_close_pending: the handle is pushed onto the front of the loop's
closing_handles singly-linked list (handle->next_closing takes the old head,
then loop->closing_handles points at the handle). -/
def uv__make_close_pending (h : HandleId) (closing_handles : List HandleId) :
    List HandleId :=
  h :: closing_handles

/-- A sequence of close requests arriving in order, each entering the closing
list through uv__make_close_pending. -/
def enqueueCloses (hs : List HandleId) (closing_handles : List HandleId) :
    List HandleId :=
  hs.foldl (fun c h => uv__make_close_pending h c) closing_handles

/-- The walk inside uv__run_closing_handles: p runs over the snapshot taken at
drain start; uv__finish_close p runs the user close callback, and cb p lists
the handles that callback closes in turn (in call order), each entering the
fresh loop->closing_handles via uv__make_close_pending. Returns the finalize
invocation order and the closing list left for the next drain. -/
def drainClosing (cb : HandleId → List HandleId) :
    List HandleId → List HandleId → List HandleId × List HandleId
  | [], newClosing => ([], newClosing)
  | h :: rest, newClosing =>
    let afterCb := enqueueCloses (cb h) newClosing
    let r := drainClosing cb rest afterCb
    (h :: r.1, r.2)

/-- uv__run_closing_handles: snapshot loop->closing_handles, reset the loop
field to NULL, then walk the snapshot from its head calling uv__finish_close
on each handle. -/
def uv__run_closing_handles (cb : HandleId → List HandleId)
    (closing_handles : List HandleId) : List HandleId × List HandleId :=
  drainClosing cb closing_handles []

theorem enqueueCloses_eq_reverse_append (hs acc : List HandleId) :
    enqueueCloses hs acc = hs.reverse ++ acc := by
  induction hs generalizing acc with
  | nil => simp [enqueueCloses]
  | cons h t ih =>
    simp only [enqueueCloses, List.foldl_cons, List.reverse_cons] at *
    rw [ih (uv__make_close_pending h acc)]
    simp [uv__make_close_pending]

theorem mem_enqueueCloses {y : HandleId} (hs acc : List HandleId) :
    y ∈ enqueueCloses hs acc ↔ y ∈ acc ∨ y ∈ hs := by
  rw [enqueueCloses_eq_reverse_append]
  simp [or_comm]

theorem drainClosing_fst (cb : HandleId → List HandleId)
    (l acc : List HandleId) : (drainClosing cb l acc).1 = l := by
  induction l generalizing acc with
  | nil => rfl
  | cons h t ih => simp [drainClosing, ih]

theorem mem_drainClosing_snd {y : HandleId} (cb : HandleId → List HandleId)
    (l acc : List HandleId) :
    y ∈ (drainClosing cb l acc).2 ↔ y ∈ acc ∨ ∃ a ∈ l, y ∈ cb a := by
  induction l generalizing acc with
  | nil => simp [drainClosing]
  | cons h t ih =>
    simp only [drainClosing]
    rw [ih (enqueueCloses (cb h) acc), mem_enqueueCloses]
    constructor
    · rintro ((hy | hy) | ⟨a, ha, hy⟩)
      · exact Or.inl hy
      · exact Or.inr ⟨h, List.mem_cons_self h t, hy⟩
      · exact Or.inr ⟨a, List.mem_cons_of_mem h ha, hy⟩
    · rintro (hy | ⟨a, ha, hy⟩)
      · exact Or.inl (Or.inl hy)
      · rcases List.mem_cons.mp ha with rfl | ha
        · exact Or.inl (Or.inr hy)
        · exact Or.inr ⟨a, ha, hy⟩

/-! ## Pending queue (uv__io_feed / uv__run_pending) -/

/-- uv__io_feed: insert the watcher at the tail of loop->pending_queue unless
its pending_queue node is already linked into a queue (the QUEUE_EMPTY check on
w->pending_queue). -/
def uv__io_feed (w : WatcherId) (pending_queue : List WatcherId) :
    List WatcherId :=
  if w ∈ pending_queue then pending_queue else pending_queue ++ [w]

/-- uv__run_pending: while loop->pending_queue is non-empty, take its head
watcher, QUEUE_REMOVE + QUEUE_INIT it (so the watcher is unqueued when its
callback runs), and invoke w->cb with UV__POLLOUT. The callback may feed
watchers: cb w lists them in call order, each going through uv__io_feed. The
C loop has no termination guarantee, so fuel bounds the number of iterations
of the model. Returns the callback invocation order and the queue state when
the loop exited (or fuel ran out). -/
def uv__run_pending (cb : WatcherId → List WatcherId) :
    Nat → List WatcherId → List WatcherId × List WatcherId
  | 0, q => ([], q)
  | Nat.succ fuel, q =>
    match q with
    | [] => ([], [])
    | w :: rest =>
      let q2 := (cb w).foldl (fun acc x => uv__io_feed x acc) rest
      let r := uv__run_pending cb fuel q2
      (w :: r.1, r.2)

/-! ## Handle close guard (uv_close) -/

/-- Modelled from the spec: the numeric values of the handle flag bitset
{CLOSING, CLOSED, ACTIVE, REF} live in headers not present under src/; only
their distinctness as single bits is relied on. -/
def UV_CLOSING : Nat := 1

/-- Modelled from the spec: see UV_CLOSING. -/
def UV_CLOSED : Nat := 2

/-- Handle type tags, as switched over in uv_close and uv__finish_close. -/
inductive HandleType
  | namedPipe | tty | tcp | udp | prepareH | checkH | idle | asyncH
  | timer | process | fsEvent | pollH | fsPoll | signal
deriving DecidableEq

/-- The base handle state uv_close acts on. -/
structure UvHandle where
  flags : Nat
  htype : HandleType
  hasCloseCb : Bool
deriving DecidableEq

/-- uv_close: assert(!(handle->flags & (UV_CLOSING | UV_CLOSED))); set
UV_CLOSING; store close_cb; dispatch the type-specific close hook (external
collaborator, no effect on the fields modelled here); then call
uv__make_close_pending — except for UV_SIGNAL, whose hook enqueues later on
its own. Returns none when the entry assertion fails, otherwise the updated
handle paired with whether it entered the closing list during this call. -/
def uv_close (h : UvHandle) (hasCb : Bool) : Option (UvHandle × Bool) :=
  if h.flags &&& (UV_CLOSING ||| UV_CLOSED) ≠ 0 then none
  else
    some ({ h with flags := h.flags ||| UV_CLOSING, hasCloseCb := hasCb },
          h.htype ≠ HandleType.signal)

/-! ## Watcher table sizing (next_power_of_two / maybe_resize) -/

/-- The modulus of C unsigned int; next_power_of_two computes in this type. -/
def U32 : Nat := 4294967296

/-- One bit-smearing step of next_power_of_two: val |= val >> k. -/
def npotStep (v : Nat) (k : Nat) : Nat := v ||| (v >>> k)

/-- next_power_of_two, translated from the C implementation over unsigned int:
val -= 1; five or-with-shift smears; val += 1. The decrement and increment are
the only operations that can wrap, hence the explicit mod U32. -/
def next_power_of_two (val : Nat) : Nat :=
  (npotStep (npotStep (npotStep (npotStep (npotStep
      ((val % U32 + (U32 - 1)) % U32) 1) 2) 4) 8) 16 + 1) % U32

theorem le_lor_self (x y : Nat) : x ≤ x ||| y :=
  Nat.le_of_testBit (by intro i h; rw [Nat.testBit_lor, h, Bool.true_or])

theorem shiftRight_le_self (x k : Nat) : x >>> k ≤ x := by
  rw [Nat.shiftRight_eq_div_pow]; exact Nat.div_le_self x (2 ^ k)

theorem npotStep_ge (v k : Nat) : v ≤ npotStep v k := le_lor_self v (v >>> k)

theorem npotStep_lt {v : Nat} (hv : v < 2 ^ 31) (k : Nat) :
    npotStep v k < 2 ^ 31 :=
  Nat.or_lt_two_pow hv (Nat.lt_of_le_of_lt (shiftRight_le_self v k) hv)

theorem next_power_of_two_ge (val : Nat) (h1 : 1 ≤ val) (h2 : val ≤ 2 ^ 31) :
    val ≤ next_power_of_two val := by
  have hU : U32 = 4294967296 := rfl
  have h31 : (2 : Nat) ^ 31 = 2147483648 := by norm_num
  have hv0 : (val % U32 + (U32 - 1)) % U32 = val - 1 := by
    have hm : val % U32 = val := Nat.mod_eq_of_lt (by rw [hU]; omega)
    rw [hm, hU]
    omega
  have hlt : val - 1 < 2 ^ 31 := by omega
  have hge : val - 1
      ≤ npotStep (npotStep (npotStep (npotStep (npotStep (val - 1) 1) 2) 4) 8)
          16 :=
    le_trans (npotStep_ge _ 1) (le_trans (npotStep_ge _ 2)
      (le_trans (npotStep_ge _ 4) (le_trans (npotStep_ge _ 8)
        (npotStep_ge _ 16))))
  have hfin : npotStep (npotStep (npotStep (npotStep (npotStep (val - 1) 1) 2)
      4) 8) 16 < 2 ^ 31 :=
    npotStep_lt (npotStep_lt (npotStep_lt (npotStep_lt (npotStep_lt hlt 1) 2)
      4) 8) 16
  unfold next_power_of_two
  rw [hv0, Nat.mod_eq_of_lt (by rw [hU]; omega)]
  omega

/-- The watcher table as maybe_resize sees it: loop->nwatchers, the fd-indexed
slot contents (none = NULL), and the two trailing auxiliary cells
watchers[nwatchers] and watchers[nwatchers + 1]. hasArray models
loop->watchers != NULL. -/
structure WatcherTable where
  nwatchers : Nat
  slots : Nat → Option WatcherId
  auxList : Option Nat
  auxCount : Option Nat
  hasArray : Bool

/-- Outcome of maybe_resize: abort() on allocation failure, or the new table. -/
inductive ResizeResult
  | aborted
  | ok (t : WatcherTable)

/-- maybe_resize: return if len <= loop->nwatchers; otherwise save the two
trailing auxiliary cells (NULL when loop->watchers is NULL), grow the array to
next_power_of_two(len + 2) - 2 slots plus the two cells, abort() if realloc
fails, null the newly added slots, and restore the auxiliary cells at the new
tail. realloc preserves the first nwatchers cells in place. -/
def maybe_resize (t : WatcherTable) (len : Nat) (allocOk : Bool) :
    ResizeResult :=
  if len ≤ t.nwatchers then .ok t
  else
    let fakeList := if t.hasArray then t.auxList else none
    let fakeCount := if t.hasArray then t.auxCount else none
    let nw := next_power_of_two (len + 2) - 2
    if allocOk then
      .ok { nwatchers := nw,
            slots := fun i => if i < t.nwatchers then t.slots i else none,
            auxList := fakeList, auxCount := fakeCount, hasArray := true }
    else .aborted

/-! ## Single-watcher interest tracking (uv__io_start / uv__io_stop) -/

/-- Modelled from the spec: the readable and writable event mask bits
(UV__POLLIN, UV__POLLOUT) are defined in a header not present under src/; the
spec only requires two distinct bits. -/
def UV__POLLIN : Nat := 1

/-- Modelled from the spec: see UV__POLLIN. -/
def UV__POLLOUT : Nat := 2

/-- The slice of loop and watcher state uv__io_start / uv__io_stop act on for
a single watcher w with a fixed fd: loop->nwatchers, whether
loop->watchers[w->fd] == w (slotW), loop->nfds, whether w->watcher_queue is
linked into loop->watcher_queue (queued), and the two masks w->pevents and
w->events. -/
structure IOWState where
  nwatchers : Nat
  slotW : Bool
  nfds : Nat
  queued : Bool
  pevents : Nat
  events : Nat
deriving DecidableEq

/-- The net effect of maybe_resize on loop->nwatchers (slot contents for the
single tracked fd are preserved: existing cells are kept by realloc and new
cells are nulled). -/
def maybe_resize_len (nw len : Nat) : Nat :=
  if len ≤ nw then nw else next_power_of_two (len + 2) - 2

/-- uv__io_start: after the mask asserts, w->pevents |= events and
maybe_resize(loop, w->fd + 1); if w->events == w->pevents the backend rearm is
elided (removing the watcher from the registration queue when the mask is
empty); otherwise the watcher is queued for registration if unqueued, and the
table slot for w->fd is claimed (incrementing loop->nfds) if NULL. -/
def uv__io_start (fd e : Nat) (s : IOWState) : IOWState :=
  let s1 : IOWState := { s with pevents := s.pevents ||| e,
                                nwatchers := maybe_resize_len s.nwatchers (fd + 1) }
  if s1.events = s1.pevents then
    if s1.events = 0 ∧ s1.queued then { s1 with queued := false } else s1
  else
    let s2 : IOWState := if s1.queued then s1 else { s1 with queued := true }
    if s2.slotW then s2 else { s2 with slotW := true, nfds := s2.nfds + 1 }

/-- uv__io_stop: return silently when (unsigned)w->fd >= loop->nwatchers (the
watcher was never started); otherwise w->pevents &= ~events; when the desired
mask becomes empty the watcher leaves the registration queue, the table slot
is cleared (decrementing loop->nfds) and w->events is zeroed; otherwise the
watcher is re-queued for registration if unqueued. The w->fd == -1 early
return cannot apply to a watcher bound to a valid fd. -/
def uv__io_stop (fd e : Nat) (s : IOWState) : IOWState :=
  if s.nwatchers ≤ fd then s
  else
    let s1 : IOWState := { s with pevents := s.pevents &&& ((U32 - 1) ^^^ e) }
    if s1.pevents = 0 then
      let s2 : IOWState := { s1 with queued := false }
      if s2.slotW then
        { s2 with slotW := false, nfds := s2.nfds - 1, events := 0 }
      else s2
    else if s1.queued then s1 else { s1 with queued := true }

/-- One startWatching or stopWatching call with its event mask argument. -/
inductive WatchOp
  | startW (e : Nat)
  | stopW (e : Nat)
deriving DecidableEq

/-- The mask asserts shared by uv__io_start and uv__io_stop:
assert(0 == (events & ~(UV__POLLIN | UV__POLLOUT))); assert(0 != events). -/
def validOp : WatchOp → Bool
  | .startW e => decide (0 < e) && decide (e < 4)
  | .stopW e => decide (0 < e) && decide (e < 4)

/-- Apply one call for the watcher on the given fd. -/
def applyOp (fd : Nat) (s : IOWState) : WatchOp → IOWState
  | .startW e => uv__io_start fd e s
  | .stopW e => uv__io_stop fd e s

/-- Apply a sequence of calls in order. -/
def applyOps (fd : Nat) (ops : List WatchOp) (s : IOWState) : IOWState :=
  ops.foldl (applyOp fd) s

/-- The inductive invariant of the start/stop state machine: the table slot is
claimed exactly when the desired mask is non-empty; within pure start/stop
sequences w->events stays zero; the mask stays within the two event bits; and
a non-empty mask implies the table covers the fd. -/
def WInv (fd : Nat) (s : IOWState) : Prop :=
  (s.slotW = true ↔ s.pevents ≠ 0) ∧ s.events = 0 ∧ s.pevents < 4
    ∧ (s.pevents ≠ 0 → fd < s.nwatchers)

theorem maybe_resize_len_ge (nw len : Nat) (hlen : len + 2 ≤ 2 ^ 31) :
    len ≤ maybe_resize_len nw len := by
  unfold maybe_resize_len
  split
  · omega
  · have := next_power_of_two_ge (len + 2) (by omega) hlen
    omega

theorem winv_step (fd : Nat) (hfd : fd + 3 ≤ 2 ^ 31) (s : IOWState)
    (op : WatchOp) (hop : validOp op = true) (h : WInv fd s) :
    WInv fd (applyOp fd s op) := by
  obtain ⟨hslot, hev, hpev, hnw⟩ := h
  cases op with
  | startW e =>
    simp only [validOp, Bool.and_eq_true, decide_eq_true_eq] at hop
    obtain ⟨he0, he4⟩ := hop
    have hpe : s.pevents ||| e ≠ 0 := by
      have : e ≤ s.pevents ||| e := by
        rw [Nat.lor_comm]; exact le_lor_self e s.pevents
      omega
    have hpe4 : s.pevents ||| e < 4 := by
      have h4 : (4 : Nat) = 2 ^ 2 := by norm_num
      rw [h4] at hpev he4 ⊢
      exact Nat.or_lt_two_pow hpev he4
    have hnw2 : fd < maybe_resize_len s.nwatchers (fd + 1) := by
      have := maybe_resize_len_ge s.nwatchers (fd + 1) (by omega)
      omega
    simp only [applyOp, uv__io_start, hev]
    have hne : (0 : Nat) ≠ s.pevents ||| e := fun hh => hpe hh.symm
    simp only [if_neg hne]
    constructor
    · split <;> split <;> simp_all
    · constructor
      · split <;> split <;> simp_all
      · constructor
        · split <;> split <;> simp_all
        · split <;> split <;> simp_all
  | stopW e =>
    simp only [applyOp, uv__io_stop]
    split
    · exact ⟨hslot, hev, hpev, hnw⟩
    · rename_i hlt
      have hle : s.pevents &&& ((U32 - 1) ^^^ e) ≤ s.pevents :=
        Nat.and_le_left
      split
      · rename_i hz
        refine ⟨?_, ?_, ?_, ?_⟩ <;> split <;> simp_all
      · rename_i hnz
        have hsp : s.pevents ≠ 0 := fun h0 =>
          hnz (by rw [h0]; exact Nat.zero_and _)
        have hsl : s.slotW = true := hslot.mpr hsp
        have hfd2 : fd < s.nwatchers := by omega
        have hlt4 : s.pevents &&& ((U32 - 1) ^^^ e) < 4 :=
          Nat.lt_of_le_of_lt hle hpev
        split
        · exact ⟨⟨fun _ => hnz, fun _ => hsl⟩, hev, hlt4, fun _ => hfd2⟩
        · exact ⟨⟨fun _ => hnz, fun _ => hsl⟩, hev, hlt4, fun _ => hfd2⟩


theorem winv_ops (fd : Nat) (hfd : fd + 3 ≤ 2 ^ 31) (ops : List WatchOp)
    (hops : ∀ op ∈ ops, validOp op = true) (s : IOWState) (h : WInv fd s) :
    WInv fd (applyOps fd ops s) := by
  induction ops generalizing s with
  | nil => exact h
  | cons op rest ih =>
    exact ih (fun o ho => hops o (List.mem_cons_of_mem op ho)) _
      (winv_step fd hfd s op (hops op (List.mem_cons_self op rest)) h)

/-! ## Claim theorems: slot occupancy tracks desired interest (C6) -/

/-- C6: for any sequence of startWatching/stopWatching calls on one watcher
with a fixed valid fd (each call passing a legal event mask), after every
prefix of the sequence the watcher-table slot for that fd is claimed iff the
watcher's desired interest mask w->pevents is non-empty. The watcher starts in
its uv__io_init state (zero masks, unqueued) with its fd slot unclaimed; the
table size and fd-count start arbitrary. -/
theorem watcher_slot_iff_pevents (fd : Nat) (hfd : fd + 3 ≤ 2 ^ 31)
    (n0 nfds0 : Nat) (ops pre suf : List WatchOp) (hsplit : ops = pre ++ suf)
    (hops : ∀ op ∈ ops, validOp op = true) :
    ((applyOps fd pre
        { nwatchers := n0, slotW := false, nfds := nfds0, queued := false,
          pevents := 0, events := 0 }).slotW = true
      ↔ (applyOps fd pre
        { nwatchers := n0, slotW := false, nfds := nfds0, queued := false,
          pevents := 0, events := 0 }).pevents ≠ 0) := by
  have hpre : ∀ op ∈ pre, validOp op = true := by
    intro op hop
    exact hops op (hsplit ▸ List.mem_append_left suf hop)
  exact (winv_ops fd hfd pre hpre _ ⟨by simp, rfl, by norm_num, by simp⟩).1

/-- C6 witness: fd 5, the sequence start-readable then stop-readable, observed
after its one-element prefix: the slot is claimed and the mask is non-empty. -/
theorem watcher_slot_iff_pevents_witness :
    ((applyOps 5 [WatchOp.startW 1]
        { nwatchers := 0, slotW := false, nfds := 0, queued := false,
          pevents := 0, events := 0 }).slotW = true
      ↔ (applyOps 5 [WatchOp.startW 1]
        { nwatchers := 0, slotW := false, nfds := 0, queued := false,
          pevents := 0, events := 0 }).pevents ≠ 0) :=
  watcher_slot_iff_pevents 5 (by norm_num) 0 0
    [WatchOp.startW 1, WatchOp.stopW 1] [WatchOp.startW 1] [WatchOp.stopW 1]
    rfl (by decide)

/-! ## Claim theorems: table growth (C8) -/

/-- C8: maybe_resize is a no-op when the table already covers the requested
length (so the table never shrinks); when it grows, the new slot count is
next_power_of_two(len + 2) - 2, which is at least the requested length, every
previously registered slot keeps its content, the two trailing auxiliary cells
keep their contents, all newly added slots are null, and allocation failure
aborts the process. -/
theorem maybe_resize_spec (t : WatcherTable) (len : Nat) (allocOk : Bool)
    (hlen : len + 2 ≤ 2 ^ 31) (harr : t.hasArray = true) :
    (len ≤ t.nwatchers → maybe_resize t len allocOk = .ok t)
    ∧ (t.nwatchers < len →
        maybe_resize t len false = .aborted
        ∧ ∃ t2, maybe_resize t len true = .ok t2
            ∧ t2.nwatchers = next_power_of_two (len + 2) - 2
            ∧ len ≤ t2.nwatchers
            ∧ t.nwatchers ≤ t2.nwatchers
            ∧ (∀ i, i < t.nwatchers → t2.slots i = t.slots i)
            ∧ (∀ i, t.nwatchers ≤ i → t2.slots i = none)
            ∧ t2.auxList = t.auxList ∧ t2.auxCount = t.auxCount) := by
  constructor
  · intro hle
    simp [maybe_resize, hle]
  · intro hgt
    have hnle : ¬ len ≤ t.nwatchers := by omega
    have hge : len ≤ next_power_of_two (len + 2) - 2 := by
      have := next_power_of_two_ge (len + 2) (by omega) hlen
      omega
    refine ⟨by simp [maybe_resize, hnle], ?_⟩
    refine ⟨{ nwatchers := next_power_of_two (len + 2) - 2,
              slots := fun i => if i < t.nwatchers then t.slots i else none,
              auxList := if t.hasArray = true then t.auxList else none,
              auxCount := if t.hasArray = true then t.auxCount else none,
              hasArray := true },
            by simp [maybe_resize, hnle], rfl, hge,
            show t.nwatchers ≤ next_power_of_two (len + 2) - 2 by omega,
            ?_, ?_, ?_, ?_⟩
    · intro i hi
      simp [hi]
    · intro i hi
      simp [Nat.not_lt_of_le hi]
    · simp [harr]
    · simp [harr]

/-- A concrete four-slot table used to witness maybe_resize_spec. -/
def sampleTable : WatcherTable :=
  { nwatchers := 4, slots := fun i => if i = 0 then some 9 else none,
    auxList := some 7, auxCount := some 1, hasArray := true }

/-- C8 witness: growing the sample table to cover length 6. -/
theorem maybe_resize_spec_witness :
    (6 ≤ sampleTable.nwatchers → maybe_resize sampleTable 6 true = .ok sampleTable)
    ∧ (sampleTable.nwatchers < 6 →
        maybe_resize sampleTable 6 false = .aborted
        ∧ ∃ t2, maybe_resize sampleTable 6 true = .ok t2
            ∧ t2.nwatchers = next_power_of_two (6 + 2) - 2
            ∧ 6 ≤ t2.nwatchers
            ∧ sampleTable.nwatchers ≤ t2.nwatchers
            ∧ (∀ i, i < sampleTable.nwatchers → t2.slots i = sampleTable.slots i)
            ∧ (∀ i, sampleTable.nwatchers ≤ i → t2.slots i = none)
            ∧ t2.auxList = sampleTable.auxList
            ∧ t2.auxCount = sampleTable.auxCount) :=
  maybe_resize_spec sampleTable 6 true (by norm_num) rfl

/-! ## Loop liveness and poll timeout (uv__loop_alive / uv_backend_timeout) -/

/-- The loop fields read by uv__loop_alive, uv_backend_timeout and the reactor
driver. closing_nonempty models loop->closing_handles != NULL, idle_nonempty
models !QUEUE_EMPTY(&loop->idle_handles), wq_nonempty models
!QUEUE_EMPTY(&loop->wq). -/
structure LoopState where
  active_handles : Nat
  fakeHandle : Nat
  active_reqs : Bool
  closing_nonempty : Bool
  idle_nonempty : Bool
  stop_flag : Bool
  wq_nonempty : Bool
deriving DecidableEq

/-- Modelled from the spec: the uv__has_active_handles macro lives in a header
not present under src/; per spec section 4.1 liveness compares the active
handle count against the always-present fake-handle bias. -/
def uv__has_active_handles (s : LoopState) : Bool :=
  s.fakeHandle < s.active_handles

/-- Modelled from the spec: the uv__has_active_reqs macro lives in a header
not present under src/; it reports whether active pending asynchronous
requests exist. -/
def uv__has_active_reqs (s : LoopState) : Bool :=
  s.active_reqs

/-- uv__loop_alive: active handles above the fake-handle bias, or active
requests, or a non-empty closing list. -/
def uv__loop_alive (s : LoopState) : Bool :=
  (decide (s.fakeHandle < s.active_handles)) || s.active_reqs
    || s.closing_nonempty

/-- uv_backend_timeout: 0 when the stop flag is set; 0 when there are neither
active handles nor active requests; 0 when idle handles are queued; 0 when
closing handles are pending; otherwise uv__next_timeout (the external timer
collaborator, passed in as nextTimeout). -/
def uv_backend_timeout (nextTimeout : Int) (s : LoopState) : Int :=
  if s.stop_flag then 0
  else if ¬ uv__has_active_handles s ∧ ¬ uv__has_active_reqs s then 0
  else if s.idle_nonempty then 0
  else if s.closing_nonempty then 0
  else nextTimeout

/-! ## Claim theorems: poll timeout computation (C5) -/

/-- C5: computePollTimeout returns 0 if the loop is stopping (the stop flag is
set, regardless of pending timers), or the loop is not alive, or idle handles
are queued, or close work is pending; otherwise it returns the value derived
from the nearest-due timer. -/
theorem backend_timeout_spec (nextTimeout : Int) (s : LoopState) :
    ((s.stop_flag = true ∨ uv__loop_alive s = false ∨ s.idle_nonempty = true
        ∨ s.closing_nonempty = true)
      → uv_backend_timeout nextTimeout s = 0)
    ∧ (¬ (s.stop_flag = true ∨ uv__loop_alive s = false
          ∨ s.idle_nonempty = true ∨ s.closing_nonempty = true)
      → uv_backend_timeout nextTimeout s = nextTimeout) := by
  constructor
  · rintro (h | h | h | h) <;>
      simp_all [uv_backend_timeout, uv__loop_alive, uv__has_active_handles,
        uv__has_active_reqs]
  · intro h
    push_neg at h
    obtain ⟨h1, h2, h3, h4⟩ := h
    simp only [Bool.not_eq_true] at h1 h3 h4
    simp only [Bool.not_eq_false] at h2
    have hor : s.fakeHandle < s.active_handles ∨ s.active_reqs = true := by
      simp only [uv__loop_alive, Bool.or_eq_true, decide_eq_true_eq] at h2
      rcases h2 with (hh | hh) | hh
      · exact Or.inl hh
      · exact Or.inr hh
      · rw [h4] at hh
        exact absurd hh (by simp)
    rcases hor with hh | hh <;>
      simp [uv_backend_timeout, uv__has_active_handles, uv__has_active_reqs,
        h1, h3, h4, hh, Nat.not_lt_of_le, Nat.le_of_lt]

/-- C5 witness: a stopped loop with an active handle and a due timer still
polls with timeout 0; instantiated at a live, non-stopping loop the timeout
comes from the timer collaborator. -/
theorem backend_timeout_spec_witness :
    ((LoopState.mk 2 0 false false false false false).stop_flag = true
        ∨ uv__loop_alive (LoopState.mk 2 0 false false false false false)
            = false
        ∨ (LoopState.mk 2 0 false false false false false).idle_nonempty
            = true
        ∨ (LoopState.mk 2 0 false false false false false).closing_nonempty
            = true
      → uv_backend_timeout 7 (LoopState.mk 2 0 false false false false false)
          = 0)
    ∧ (¬ ((LoopState.mk 2 0 false false false false false).stop_flag = true
          ∨ uv__loop_alive (LoopState.mk 2 0 false false false false false)
              = false
          ∨ (LoopState.mk 2 0 false false false false false).idle_nonempty
              = true
          ∨ (LoopState.mk 2 0 false false false false false).closing_nonempty
              = true)
      → uv_backend_timeout 7 (LoopState.mk 2 0 false false false false false)
          = 7) :=
  backend_timeout_spec 7 (LoopState.mk 2 0 false false false false false)

/-! ## Reactor driver (uv_run / uv_run_jx) -/

/-- Modelled from the spec: the uv_run_mode enumerators live in uv.h, not
present under src/. DEFAULT runs until not alive or stopped; ONCE, NOWAIT and
PAUSE are single-tick modes that uv_run_jx tests via bitmasks, so they carry
distinct bits. -/
def UV_RUN_DEFAULT : Nat := 0

/-- Modelled from the spec: see UV_RUN_DEFAULT. -/
def UV_RUN_ONCE : Nat := 1

/-- Modelled from the spec: see UV_RUN_DEFAULT. -/
def UV_RUN_NOWAIT : Nat := 2

/-- Modelled from the spec: see UV_RUN_DEFAULT. -/
def UV_RUN_PAUSE : Nat := 4

/-- THREAD_ID_NOT_DEFINED, the tid the plain uv_run entry point passes. -/
def THREAD_ID_NOT_DEFINED : Int := -1

/-- THREAD_ID_ALREADY_DEFINED, the tid used by the force-close drain's
recursive calls. -/
def THREAD_ID_ALREADY_DEFINED : Int := -2

/-- The external collaborators a tick invokes, each an arbitrary
transformation of the observable loop state: uv__update_time, uv__run_timers,
uv__run_idle, uv__run_prepare, the pending-queue drain (whose user callbacks
may change anything), the backend poll uv__io_poll_jx given the computed
timeout, uv__run_check, the closing-list drain (ditto), and uv__next_timeout.
loop->loopId is not part of LoopState: no phase writes it. -/
structure Hooks where
  update_time : LoopState → LoopState
  run_timers : LoopState → LoopState
  run_idle : LoopState → LoopState
  run_prepare : LoopState → LoopState
  run_pending : LoopState → LoopState
  io_poll : Int → LoopState → LoopState
  run_check : LoopState → LoopState
  run_closing : LoopState → LoopState
  next_timeout : LoopState → Int

/-- One iteration of uv_run_jx's while body, from uv__update_time through
uv__run_closing_handles: timeout = 0; if ((mode & UV_RUN_NOWAIT) == 0)
timeout = uv_backend_timeout(loop); the poll runs unless mode is
UV_RUN_PAUSE. Returns the new state and the timeout passed to uv__io_poll_jx
(none when the poll was skipped). -/
def uv_tick (hk : Hooks) (mode : Nat) (s : LoopState) :
    LoopState × Option Int :=
  let s5 := hk.run_pending (hk.run_prepare (hk.run_idle (hk.run_timers
    (hk.update_time s))))
  let timeout : Int :=
    if mode &&& UV_RUN_NOWAIT = 0 then
      uv_backend_timeout (hk.next_timeout s5) s5
    else 0
  let s6p : LoopState × Option Int :=
    if mode ≠ UV_RUN_PAUSE then (hk.io_poll timeout s5, some timeout)
    else (s5, none)
  (hk.run_closing (hk.run_check s6p.1), s6p.2)

/-- The while loop of uv_run_jx: while (r != 0 && loop->stop_flag == 0) run a
tick, recompute r = uv__loop_alive(loop), and break after one tick in any of
the single-tick modes. fuel bounds the iterations of the model (a
DEFAULT-mode run may need unboundedly many). Returns the final state, the
final r, the poll timeouts in order, and the tick count. -/
def uv_run_ticks (hk : Hooks) (mode : Nat) :
    Nat → LoopState → Bool → LoopState × Bool × List Int × Nat
  | 0, s, r => (s, r, [], 0)
  | Nat.succ fuel, s, r =>
    if r = true ∧ s.stop_flag = false then
      let tp := uv_tick hk mode s
      let r1 := uv__loop_alive tp.1
      if mode &&& (UV_RUN_ONCE ||| UV_RUN_NOWAIT ||| UV_RUN_PAUSE) ≠ 0 then
        (tp.1, r1, tp.2.toList, 1)
      else
        let rest := uv_run_ticks hk mode fuel tp.1 r1
        (rest.1, rest.2.1, tp.2.toList ++ rest.2.2.1, rest.2.2.2 + 1)
    else (s, r, [], 0)

/-- The loop->loopId assignment at the top of uv_run_jx. -/
def assignLoopId (loopId0 tid : Int) : Int :=
  if tid ≠ THREAD_ID_ALREADY_DEFINED then
    if tid ≠ THREAD_ID_NOT_DEFINED then tid else 63
  else loopId0

/-- The observable outcome of a uv_run_jx call: final loop state, final
loop->loopId, the returned liveness r, the timeouts handed to the backend
poll in order, and the number of ticks executed. -/
structure RunResult where
  state : LoopState
  loopId : Int
  r : Bool
  polls : List Int
  ticks : Nat
deriving DecidableEq

/-- One force-close drain iteration: uv_run_jx(loop, UV_RUN_NOWAIT,
triggerSync, THREAD_ID_ALREADY_DEFINED). The callee keeps loop->loopId (tid
is the already-defined sentinel), runs at most one tick, clears a freshly
raised stop flag, and returns at the mode != UV_RUN_DEFAULT check, before its
own force-close block — so it is drain-free and can be given directly. -/
def uv_run_nowait_step (hk : Hooks) (tickFuel : Nat) (loopId : Int)
    (s : LoopState) : RunResult :=
  let lid := assignLoopId loopId THREAD_ID_ALREADY_DEFINED
  let w := uv_run_ticks hk UV_RUN_NOWAIT tickFuel s (uv__loop_alive s)
  if w.1.stop_flag then
    ⟨{ w.1 with stop_flag := false }, lid, w.2.1, w.2.2.1, w.2.2.2⟩
  else ⟨w.1, lid, w.2.1, w.2.2.1, w.2.2.2⟩

/-- The force-close drain: while (ret_val) keep issuing NOWAIT runs, giving
up when the 50 ms wall-clock budget — modelled as iteration fuel — runs out.
Returns the final state plus accumulated polls and ticks. -/
def forceCloseDrain (hk : Hooks) (tickFuel : Nat) (loopId : Int) :
    Nat → Bool → LoopState → LoopState × List Int × Nat
  | 0, _, s => (s, [], 0)
  | Nat.succ fuel, retVal, s =>
    if retVal then
      let res := uv_run_nowait_step hk tickFuel loopId s
      let rest := forceCloseDrain hk tickFuel loopId fuel res.r res.state
      (rest.1, res.polls ++ rest.2.1, res.ticks + rest.2.2)
    else (s, [], 0)

/-- uv_run_jx: assign loop->loopId from tid; run the tick loop; in DEFAULT
mode with loopId >= 0 a non-null triggerSync is notified (external call, no
effect on the modelled state); if the stop flag was raised it is cleared, and
— only in DEFAULT mode, when the work queue is non-empty and this is not the
primary loop (loopId > 0) — the bounded force-close drain of NOWAIT runs is
executed. Returns the liveness r computed by the main loop. tickFuel bounds
the main while loop, drainFuel models the 50 ms drain budget. -/
def uv_run_jx (hk : Hooks) (mode : Nat) (tid : Int) (tickFuel drainFuel : Nat)
    (loopId0 : Int) (s0 : LoopState) : RunResult :=
  let lid := assignLoopId loopId0 tid
  let w := uv_run_ticks hk mode tickFuel s0 (uv__loop_alive s0)
  if w.1.stop_flag then
    let s2 := { w.1 with stop_flag := false }
    if mode ≠ UV_RUN_DEFAULT then ⟨s2, lid, w.2.1, w.2.2.1, w.2.2.2⟩
    else if s2.wq_nonempty = true ∧ 0 < lid then
      let d := forceCloseDrain hk tickFuel lid drainFuel true s2
      ⟨d.1, lid, w.2.1, w.2.2.1 ++ d.2.1, w.2.2.2 + d.2.2⟩
    else ⟨s2, lid, w.2.1, w.2.2.1, w.2.2.2⟩
  else ⟨w.1, lid, w.2.1, w.2.2.1, w.2.2.2⟩

/-- uv_run(loop, mode) = uv_run_jx(loop, mode, NULL, -1). -/
def uv_run (hk : Hooks) (mode : Nat) (tickFuel drainFuel : Nat)
    (loopId0 : Int) (s0 : LoopState) : RunResult :=
  uv_run_jx hk mode THREAD_ID_NOT_DEFINED tickFuel drainFuel loopId0 s0

theorem uv_run_jx_loopId (hk : Hooks) (mode : Nat) (tid : Int)
    (tickFuel drainFuel : Nat) (loopId0 : Int) (s0 : LoopState) :
    (uv_run_jx hk mode tid tickFuel drainFuel loopId0 s0).loopId
      = assignLoopId loopId0 tid := by
  simp only [uv_run_jx]
  repeat' split
  all_goals rfl

/-- Hooks that leave the modelled loop state untouched; used for concrete
instantiations. -/
def idHooks : Hooks :=
  ⟨id, id, id, id, id, fun _ s => s, id, id, fun _ => 0⟩

/-- A loop with nothing to do: no handles, requests, closing or idle work. -/
def deadLoop : LoopState := ⟨0, 0, false, false, false, false, false⟩

/-! ## Claim theorems: NOWAIT never blocks, single tick (C4) -/

/-- C4 counterexample: a loop that is not alive runs zero ticks under
run(loop, NOWAIT) — the while condition fails at entry — refuting the claim
that exactly one tick executes regardless of loop liveness. -/
theorem run_nowait_dead_loop_zero_ticks :
    uv__loop_alive deadLoop = false
    ∧ (uv_run_jx idHooks UV_RUN_NOWAIT THREAD_ID_NOT_DEFINED 1 1 0
        deadLoop).ticks ≠ 1 := by decide

/-- C4 (amended): run(loop, NOWAIT) never blocks on the backend poll — every
timeout handed to the poll is 0 — and returns after at most one tick: exactly
one when the loop is alive and the stop flag is clear at entry, and zero
otherwise. -/
theorem run_nowait_never_blocks (hk : Hooks) (tid : Int)
    (tickFuel drainFuel : Nat) (loopId0 : Int) (s0 : LoopState)
    (hfuel : 1 ≤ tickFuel) :
    (∀ t ∈ (uv_run_jx hk UV_RUN_NOWAIT tid tickFuel drainFuel loopId0
        s0).polls, t = 0)
    ∧ (uv_run_jx hk UV_RUN_NOWAIT tid tickFuel drainFuel loopId0 s0).ticks
        = (if uv__loop_alive s0 = true ∧ s0.stop_flag = false then 1
           else 0) := by
  obtain ⟨n, rfl⟩ : ∃ n, tickFuel = n + 1 := ⟨tickFuel - 1, by omega⟩
  have htick : (uv_tick hk UV_RUN_NOWAIT s0).2 = some 0 := rfl
  have hpolls : (uv_run_jx hk UV_RUN_NOWAIT tid (n + 1) drainFuel loopId0
      s0).polls
      = (uv_run_ticks hk UV_RUN_NOWAIT (n + 1) s0 (uv__loop_alive s0)).2.2.1
      := by
    simp only [uv_run_jx]
    repeat' split
    all_goals first | rfl | simp_all [UV_RUN_NOWAIT, UV_RUN_DEFAULT]
  have hticks : (uv_run_jx hk UV_RUN_NOWAIT tid (n + 1) drainFuel loopId0
      s0).ticks
      = (uv_run_ticks hk UV_RUN_NOWAIT (n + 1) s0 (uv__loop_alive s0)).2.2.2
      := by
    simp only [uv_run_jx]
    repeat' split
    all_goals first | rfl | simp_all [UV_RUN_NOWAIT, UV_RUN_DEFAULT]
  by_cases hc : uv__loop_alive s0 = true ∧ s0.stop_flag = false
  · have hw : uv_run_ticks hk UV_RUN_NOWAIT (n + 1) s0 (uv__loop_alive s0)
        = ((uv_tick hk UV_RUN_NOWAIT s0).1,
           uv__loop_alive (uv_tick hk UV_RUN_NOWAIT s0).1,
           (uv_tick hk UV_RUN_NOWAIT s0).2.toList, 1) := by
      rw [uv_run_ticks, if_pos hc]
      rfl
    constructor
    · intro t ht
      rw [hpolls, hw] at ht
      simp only [htick, Option.toList_some, List.mem_singleton] at ht
      exact ht
    · rw [hticks, hw, if_pos hc]
  · have hw : uv_run_ticks hk UV_RUN_NOWAIT (n + 1) s0 (uv__loop_alive s0)
        = (s0, uv__loop_alive s0, [], 0) := by
      rw [uv_run_ticks, if_neg hc]
    constructor
    · intro t ht
      rw [hpolls, hw] at ht
      simp at ht
    · rw [hticks, hw, if_neg hc]

/-- C4 witness: an alive, unstopped loop under NOWAIT polls once with timeout
0 and runs exactly one tick. -/
theorem run_nowait_never_blocks_witness :
    (∀ t ∈ (uv_run_jx idHooks UV_RUN_NOWAIT THREAD_ID_NOT_DEFINED 1 1 0
        (LoopState.mk 2 0 false false false false false)).polls, t = 0)
    ∧ (uv_run_jx idHooks UV_RUN_NOWAIT THREAD_ID_NOT_DEFINED 1 1 0
        (LoopState.mk 2 0 false false false false false)).ticks
        = (if uv__loop_alive (LoopState.mk 2 0 false false false false false)
              = true
            ∧ (LoopState.mk 2 0 false false false false false).stop_flag
              = false then 1 else 0) :=
  run_nowait_never_blocks idHooks THREAD_ID_NOT_DEFINED 1 1 0
    (LoopState.mk 2 0 false false false false false) (by norm_num)

/-! ## Claim theorems: thread identity assignment (C10) -/

/-- C10: every uv_run_jx call with tid other than the already-defined
sentinel (-2) overwrites loop->loopId before the first tick: it becomes tid
for tid in 0..63, and 63 for the not-defined sentinel (-1), which plain
uv_run always passes — so after uv_run the loop identity is 63, satisfying
the force-close drain's non-primary-loop test loopId > 0. -/
theorem run_jx_thread_identity (hk : Hooks) (mode : Nat) (tid : Int)
    (tickFuel drainFuel : Nat) (loopId0 : Int) (s0 : LoopState) :
    (0 ≤ tid ∧ tid ≤ 63 →
      (uv_run_jx hk mode tid tickFuel drainFuel loopId0 s0).loopId = tid)
    ∧ (tid = THREAD_ID_NOT_DEFINED →
      (uv_run_jx hk mode tid tickFuel drainFuel loopId0 s0).loopId = 63)
    ∧ (uv_run hk mode tickFuel drainFuel loopId0 s0).loopId = 63
    ∧ 0 < (uv_run hk mode tickFuel drainFuel loopId0 s0).loopId := by
  have hrun : (uv_run hk mode tickFuel drainFuel loopId0 s0).loopId = 63 := by
    rw [uv_run, uv_run_jx_loopId]
    rfl
  refine ⟨?_, ?_, hrun, by rw [hrun]; norm_num⟩
  · rintro ⟨h0, h63⟩
    rw [uv_run_jx_loopId, assignLoopId,
      if_pos (show tid ≠ THREAD_ID_ALREADY_DEFINED by
        rw [THREAD_ID_ALREADY_DEFINED]; omega),
      if_pos (show tid ≠ THREAD_ID_NOT_DEFINED by
        rw [THREAD_ID_NOT_DEFINED]; omega)]
  · intro h
    rw [uv_run_jx_loopId, h]
    rfl

/-- C10 witness: tid 5 sets loopId 5; uv_run ends with loopId 63 > 0. -/
theorem run_jx_thread_identity_witness :
    (0 ≤ (5 : Int) ∧ (5 : Int) ≤ 63 →
      (uv_run_jx idHooks UV_RUN_DEFAULT 5 1 1 0 deadLoop).loopId = 5)
    ∧ ((5 : Int) = THREAD_ID_NOT_DEFINED →
      (uv_run_jx idHooks UV_RUN_DEFAULT 5 1 1 0 deadLoop).loopId = 63)
    ∧ (uv_run idHooks UV_RUN_DEFAULT 1 1 0 deadLoop).loopId = 63
    ∧ 0 < (uv_run idHooks UV_RUN_DEFAULT 1 1 0 deadLoop).loopId :=
  run_jx_thread_identity idHooks UV_RUN_DEFAULT 5 1 1 0 deadLoop

/-! ## fd helpers and EINTR handling (uv__close, uv__accept, uv__nonblock,
uv__cloexec, uv__dup) -/

/-- Outcome of one syscall: a non-negative return value, or -1 with the given
errno. -/
inductive SysRes
  | ok (v : Nat)
  | err (errno : Nat)
deriving DecidableEq

/-- errno value for interrupted-by-signal (Linux numbering; only its
distinctness from other errno values matters). -/
def EINTR : Nat := 4

/-- errno value for operation-in-progress (Linux numbering). -/
def EINPROGRESS : Nat := 115

/-- Whether a syscall outcome is an EINTR failure. -/
def isEINTR : SysRes → Bool
  | .err e => e = EINTR
  | .ok _ => false

/-- The do/while (r == -1 && errno == EINTR) retry pattern of uv__accept
(around accept/accept4) and of the ioctl-based uv__nonblock and uv__cloexec:
reissue the syscall while it fails with EINTR. calls is the sequence of
outcomes the kernel produces; none means every provided outcome was an EINTR
failure and the loop is still retrying. -/
def retryOnEINTR : List SysRes → Option SysRes
  | [] => none
  | r :: rest => if isEINTR r then retryOnEINTR rest else some r

/-- uv__nonblock on the ioctl (FIONBIO) branch compiled for Linux, FreeBSD
and Apple: do r = ioctl(fd, FIONBIO, &set) while (r == -1 && errno == EINTR);
the caller sees the first non-EINTR outcome. -/
def uv__nonblock (calls : List SysRes) : Option SysRes := retryOnEINTR calls

/-- uv__cloexec on the ioctl (FIOCLEX / FIONCLEX) branch: the same retry
loop as uv__nonblock. The fcntl branch for other platforms retries each fcntl
call on EINTR the same way. -/
def uv__cloexec (calls : List SysRes) : Option SysRes := retryOnEINTR calls

/-- uv__close: a single close(fd) call, never retried. On success the return
code is handed back; on failure rc = -errno, and -EINTR is rewritten to
-EINPROGRESS (for platform/libc consistency) before being returned to the
caller. -/
def uv__close (res : SysRes) : Int :=
  match res with
  | .ok v => (v : Int)
  | .err e =>
    if (-(e : Int)) = -((EINTR : Nat) : Int) then -((EINPROGRESS : Nat) : Int)
    else -(e : Int)

/-- uv__dup: fd = dup(fd) — a single call, not retried — then uv__cloexec,
whose own loop does retry EINTR. On dup failure the errno reaches the caller
unchanged; on cloexec failure the new fd is closed (errno saved around the
close) and the cloexec errno propagates. -/
def uv__dup (dupRes : SysRes) (cloexecCalls : List SysRes) :
    Option (Except Nat Nat) :=
  match dupRes with
  | .err e => some (.error e)
  | .ok fd =>
    match retryOnEINTR cloexecCalls with
    | none => none
    | some (.ok _) => some (.ok fd)
    | some (.err e) => some (.error e)

/-- uv__accept on the plain-accept path (the Linux accept4 path retries EINTR
identically via its continue): loop forever { peerfd = accept(sockfd); on
EINTR continue; on another error break, failing with that errno; on success
run uv__cloexec then uv__nonblock (each its own EINTR-retrying ioctl loop);
if either fails, close the peer fd and fail with that errno }. none models a
retry loop whose outcome list ran out while still seeing EINTR. -/
def uv__accept (acceptCalls cloexecCalls nonblockCalls : List SysRes) :
    Option (Except Nat Nat) :=
  match retryOnEINTR acceptCalls with
  | none => none
  | some (.err e) => some (.error e)
  | some (.ok peerfd) =>
    match retryOnEINTR cloexecCalls with
    | none => none
    | some (.err e) => some (.error e)
    | some (.ok _) =>
      match retryOnEINTR nonblockCalls with
      | none => none
      | some (.err e) => some (.error e)
      | some (.ok _) => some (.ok peerfd)

theorem retryOnEINTR_not_eintr (l : List SysRes) (e : Nat)
    (h : retryOnEINTR l = some (.err e)) : e ≠ EINTR := by
  induction l with
  | nil => simp [retryOnEINTR] at h
  | cons r rest ih =>
    by_cases hr : isEINTR r = true
    · exact ih (by simpa [retryOnEINTR, hr] using h)
    · rw [retryOnEINTR, if_neg hr] at h
      cases r with
      | ok v => simp at h
      | err e2 =>
        simp only [Option.some.injEq, SysRes.err.injEq] at h
        subst h
        simpa [isEINTR] using hr

/-! ## Claim theorems: EINTR handling of the fd helpers (C9) -/

/-- C9 counterexample: dup failing with EINTR is not retried — uv__dup hands
the EINTR failure straight to the caller; and uv__close does not retry an
EINTR failure of close either: it returns -EINPROGRESS (-115), an
EINTR-caused failure result visible to the caller. -/
theorem dup_and_close_eintr_visible :
    uv__dup (SysRes.err EINTR) [] = some (Except.error EINTR)
      ∧ uv__close (SysRes.err EINTR) = -115 := ⟨rfl, by decide⟩

/-- C9 (amended): the accept wrapper and the ioctl-based nonblock/cloexec
wrappers retry EINTR internally, so a caller-visible failure from them never
carries errno EINTR; uv__close, however, performs a single close call and
maps an EINTR failure to EINPROGRESS, returning it to the caller rather than
retrying; and uv__dup does not retry dup, propagating even an EINTR failure
unchanged. -/
theorem eintr_retry_spec :
    (∀ (l : List SysRes) (e : Nat),
        uv__nonblock l = some (.err e) → e ≠ EINTR)
    ∧ (∀ (l : List SysRes) (e : Nat),
        uv__cloexec l = some (.err e) → e ≠ EINTR)
    ∧ (∀ (a c nb : List SysRes) (e : Nat),
        uv__accept a c nb = some (.error e) → e ≠ EINTR)
    ∧ uv__close (SysRes.err EINTR) = -((EINPROGRESS : Nat) : Int)
    ∧ (∀ cc : List SysRes,
        uv__dup (SysRes.err EINTR) cc = some (.error EINTR)) := by
  refine ⟨fun l e h => retryOnEINTR_not_eintr l e h,
          fun l e h => retryOnEINTR_not_eintr l e h, ?_, by decide,
          fun cc => rfl⟩
  intro a c nb e h
  unfold uv__accept at h
  cases ha : retryOnEINTR a with
  | none => rw [ha] at h; simp at h
  | some r =>
    rw [ha] at h
    cases r with
    | err e2 =>
      simp only [Option.some.injEq, Except.error.injEq] at h
      exact h ▸ retryOnEINTR_not_eintr a e2 ha
    | ok fd =>
      cases hc : retryOnEINTR c with
      | none => rw [hc] at h; simp at h
      | some r2 =>
        rw [hc] at h
        cases r2 with
        | err e2 =>
          simp only [Option.some.injEq, Except.error.injEq] at h
          exact h ▸ retryOnEINTR_not_eintr c e2 hc
        | ok fd2 =>
          cases hnb : retryOnEINTR nb with
          | none => rw [hnb] at h; simp at h
          | some r3 =>
            rw [hnb] at h
            cases r3 with
            | err e2 =>
              simp only [Option.some.injEq, Except.error.injEq] at h
              exact h ▸ retryOnEINTR_not_eintr nb e2 hnb
            | ok fd3 => simp at h

/-- C9 witness: an ioctl sequence failing once with EINTR and then with
errno 9 surfaces errno 9, which the amended claim certifies is not EINTR. -/
theorem eintr_retry_spec_witness :
    uv__nonblock [SysRes.err EINTR, SysRes.err 9] = some (SysRes.err 9)
      ∧ (9 : Nat) ≠ EINTR :=
  ⟨by decide, eintr_retry_spec.1 [SysRes.err EINTR, SysRes.err 9] 9
    (by decide)⟩

/-- C1 counterexample: enqueue handles 1, 2, 3 in that order in one tick (no
close callback closing further handles); the drain finalizes them in the order
3, 2, 1 — uv__make_close_pending prepends, so the drain order is the reverse
of the enqueue order, not the FIFO order the claim states. -/
theorem closing_drain_not_fifo :
    (uv__run_closing_handles (fun _ => []) (enqueueCloses [1, 2, 3] [])).1
      ≠ [1, 2, 3] := by decide

/-- C1 (amended): for every set of handles enqueued on the closing list during
one tick (no close callback closing further handles), the tick's drain invokes
finalize exactly once per enqueued handle — but in LIFO order, the reverse of
the order the handles were enqueued by their close requests. -/
theorem closing_drain_once_per_handle_lifo (hs : List HandleId) :
    (uv__run_closing_handles (fun _ => []) (enqueueCloses hs [])).1
        = hs.reverse
      ∧ ∀ h : HandleId,
        ((uv__run_closing_handles (fun _ => []) (enqueueCloses hs [])).1.count h
          = hs.count h) := by
  have hfst : (uv__run_closing_handles (fun _ => []) (enqueueCloses hs [])).1
      = hs.reverse := by
    rw [uv__run_closing_handles, drainClosing_fst,
        enqueueCloses_eq_reverse_append, List.append_nil]
  exact ⟨hfst, fun h => by rw [hfst, List.count_reverse]⟩

/-! ## Claim theorems: close-from-close-callback deferral (C2) -/

/-- C2: a handle B whose close is requested from within the close callback of
a handle A that is being finalized by the current closing-list drain (B not
itself already on the list when the drain started) is not finalized within
that drain; it sits on the new closing list and is finalized by a subsequent
drain. -/
theorem close_within_callback_deferred (cb : HandleId → List HandleId)
    (closing : List HandleId) (B : HandleId)
    (hB : B ∉ closing) (hreq : ∃ A ∈ closing, B ∈ cb A) :
    B ∉ (uv__run_closing_handles cb closing).1
      ∧ B ∈ (uv__run_closing_handles cb closing).2
      ∧ B ∈ (uv__run_closing_handles cb
              (uv__run_closing_handles cb closing).2).1 := by
  have h1 : (uv__run_closing_handles cb closing).1 = closing :=
    drainClosing_fst cb closing []
  have h2 : B ∈ (uv__run_closing_handles cb closing).2 := by
    rw [uv__run_closing_handles, mem_drainClosing_snd]
    exact Or.inr hreq
  refine ⟨by rw [h1]; exact hB, h2, ?_⟩
  rw [uv__run_closing_handles, drainClosing_fst]
  exact h2

/-- C2 witness: handle 1 is on the closing list; its close callback closes
handle 2; the drain does not finalize 2, leaves it queued, and the next drain
finalizes it. -/
theorem close_within_callback_deferred_witness :
    2 ∉ (uv__run_closing_handles (fun a => if a = 1 then [2] else []) [1]).1
      ∧ 2 ∈ (uv__run_closing_handles (fun a => if a = 1 then [2] else []) [1]).2
      ∧ 2 ∈ (uv__run_closing_handles (fun a => if a = 1 then [2] else [])
              (uv__run_closing_handles
                (fun a => if a = 1 then [2] else []) [1]).2).1 :=
  close_within_callback_deferred (fun a => if a = 1 then [2] else []) [1] 2
    (by decide) ⟨1, by decide, by decide⟩

/-! ## Claim theorems: pending-queue drain (C3) -/

/-- C3 counterexample: watcher 0 is the only watcher queued when the drain
starts, and its callback re-feeds watcher 0. Within a single execution of
uv__run_pending (fuel 2 covers just the first two loop iterations) watcher 0's
callback is invoked twice, and the queue is still non-empty — the re-fed
watcher is run again within the current drain, contradicting the claim that it
is deferred to the next drain (and the while loop does not terminate). -/
theorem run_pending_refeed_reruns_same_drain :
    (uv__run_pending (fun w => [w]) 2 [0]).1 = [0, 0]
      ∧ (uv__run_pending (fun w => [w]) 2 [0]).2 = [0] := by decide

/-- C3 (amended): one execution of the pending-queue drain pops watchers until
the queue is empty. When no callback feeds a watcher, it dequeues and invokes
exactly the watchers queued at the moment the drain starts, once each, in FIFO
order, and terminates with an empty queue; but a callback that re-feeds its
own watcher causes that watcher's callback to run again within the current
drain, and the drain loop need not terminate. -/
theorem run_pending_no_feed_fifo (cb : WatcherId → List WatcherId)
    (q : List WatcherId) (hcb : ∀ w, cb w = []) :
    uv__run_pending cb q.length q = (q, []) := by
  induction q with
  | nil => rfl
  | cons w rest ih =>
    show uv__run_pending cb (rest.length + 1) (w :: rest) = _
    simp only [uv__run_pending, hcb, List.foldl_nil, ih]

/-- C3 witness: draining the queue [5, 7] with callbacks that feed nothing
invokes 5 then 7 and empties the queue. -/
theorem run_pending_no_feed_fifo_witness :
    uv__run_pending (fun _ => []) 2 [5, 7] = ([5, 7], []) :=
  run_pending_no_feed_fifo (fun _ => []) [5, 7] (fun _ => rfl)

/-! ## Claim theorems: uv_close precondition (C7) -/

/-- C7: uv_close rejects (its entry assertion fails, modelled as the none
result) exactly those handles whose flags already include UV_CLOSING or
UV_CLOSED; equivalently, the assertion holds for every handle on which
uv_close is legally called. -/
theorem uv_close_rejects_closing_or_closed (flags : Nat) (t : HandleType)
    (cb0 hasCb : Bool) :
    uv_close ⟨flags, t, cb0⟩ hasCb = none
      ↔ flags &&& (UV_CLOSING ||| UV_CLOSED) ≠ 0 := by
  by_cases h : flags &&& (UV_CLOSING ||| UV_CLOSED) ≠ 0 <;>
    simp [uv_close, h]

end Libuv
